import Mathlib

/-!
Verification development for the MULTREGT region-multiplier scanner
(`MULTREGTScanner.cpp` of opm-common).  The C++ code is shallowly embedded:

* `MULTREGT.RegionNameFromDeckValue`, `MULTREGT.NNCBehaviourFromString`
  translate the token resolvers (source lines 35-64);
* `DeckRecord` models one structured keyword record with its defaulted
  flags (the deck collaborator supplies values plus a defaulted predicate);
* `assertKeywordSupported` translates the validator (lines 136-150);
* `addKeyword` translates the record expander (lines 154-192);
* `buildSearchPairs` / `buildSearchMap` translate the constructor body
  (lines 107-132): the intermediate `searchPairs` map keyed by region
  pair only, regrouped per categorization into `m_searchMap`
  (a `std::map`, i.e. keys iterate in ascending string order);
* `getRegionMultiplier` translates the query (lines 217-256).

Machine doubles appear only as stored-and-returned multiplier factors, no
arithmetic is ever performed on them, so they are modelled by `Rat`.
Direction bitmasks are `Nat` with bitwise tests, exactly as the C++ uses
`directions & faceDir`.  The interfaces consumed from collaborators
(`Eclipse3DProperties`, `GridProperty`) are modelled by the `Props`
structure: region-array presence, distinct region IDs per categorization,
a per-cell region accessor, and the grid extents NX/NY.
-/

namespace MULTREGTSpec

/-- The two C++ exception kinds thrown by this translation unit:
`std::invalid_argument` and `std::logic_error`. -/
inductive BuildError where
  | invalidArgument (msg : String) : BuildError
  | logicError (msg : String) : BuildError
deriving DecidableEq, Repr

/-- Decidable equality of build outcomes, used to evaluate the embedded
builder at concrete decks. -/
instance instDecEqExcept {ε α : Type} [DecidableEq ε] [DecidableEq α] :
    DecidableEq (Except ε α) := fun x y =>
  match x, y with
  | Except.ok a, Except.ok b =>
    if h : a = b then Decidable.isTrue (by rw [h])
    else Decidable.isFalse (fun hc => h (Except.ok.inj hc))
  | Except.ok _, Except.error _ => Decidable.isFalse (fun hc => Except.noConfusion hc)
  | Except.error _, Except.ok _ => Decidable.isFalse (fun hc => Except.noConfusion hc)
  | Except.error e, Except.error f =>
    if h : e = f then Decidable.isTrue (by rw [h])
    else Decidable.isFalse (fun hc => h (Except.error.inj hc))

/-- NNC behaviour variants of `MULTREGT::NNCBehaviourEnum`. -/
inductive NNCBehaviourEnum where
  | NNC : NNCBehaviourEnum
  | NONNC : NNCBehaviourEnum
  | ALL : NNCBehaviourEnum
  | NOAQUNNC : NNCBehaviourEnum
deriving DecidableEq, Repr

namespace MULTREGT

/-- Source lines 35-46: map the deck region code O/F/M to the
categorization array name; anything else throws `invalid_argument`. -/
def RegionNameFromDeckValue (stringValue : String) : Except BuildError String :=
  if stringValue = "O" then Except.ok "OPERNUM"
  else if stringValue = "F" then Except.ok "FLUXNUM"
  else if stringValue = "M" then Except.ok "MULTNUM"
  else Except.error (BuildError.invalidArgument
    ("The input string: " ++ stringValue ++ " was invalid. Expected: O/F/M"))

/-- Source lines 50-64: map the NNC behaviour token to the enum;
anything else throws `invalid_argument`. -/
def NNCBehaviourFromString (stringValue : String) : Except BuildError NNCBehaviourEnum :=
  if stringValue = "ALL" then Except.ok NNCBehaviourEnum.ALL
  else if stringValue = "NNC" then Except.ok NNCBehaviourEnum.NNC
  else if stringValue = "NONNC" then Except.ok NNCBehaviourEnum.NONNC
  else if stringValue = "NOAQUNNC" then Except.ok NNCBehaviourEnum.NOAQUNNC
  else Except.error (BuildError.invalidArgument
    ("The input string: " ++ stringValue ++ " was invalid. Expected: ALL/NNC/NONNC/NOAQUNNC"))

end MULTREGT

/-- One entry of `m_records`: `MULTREGTRecord` as pushed at source
line 188. -/
structure MULTREGTRecord where
  src_value : Int
  target_value : Int
  trans_mult : Rat
  directions : Nat
  nnc_behaviour : NNCBehaviourEnum
  region_name : String
deriving DecidableEq, Repr

/-- One deck record of a MULTREGT keyword occurrence, as exposed by the
deck collaborator: each item carries its value together with the
item-was-defaulted predicate (`defaultApplied`).  The DIRECTIONS item is
stored already parsed to the face bitmask, since `FaceDir::FromMULTREGTString`
is an external collaborator. -/
structure DeckRecord where
  src_default : Bool
  src_value : Int
  target_default : Bool
  target_value : Int
  region_default : Bool
  region_value : String
  trans_mult : Rat
  directions : Nat
  nnc_code : String
deriving DecidableEq, Repr

/-- The grid-property collaborator (`Eclipse3DProperties` plus the
`GridProperty` geometry): presence of a categorization array, its
distinct region IDs, the per-cell region accessor `iget`, the grid
extents, and the default region keyword. -/
structure Props where
  hasDeckIntGridProperty : String → Bool
  getRegions : String → List Int
  iget : String → Nat → Int
  getNX : Nat
  getNY : Nat
  getDefaultRegionKeyword : String

/-- Source lines 136-150, `assertKeywordSupported` on one record:
the NNC behaviour token is resolved first (throwing on an unknown code),
then explicit equal source/target regions are rejected, then the
`NOAQUNNC` behaviour is rejected. -/
def assertRecordSupported (r : DeckRecord) : Except BuildError Unit := do
  let nnc_behaviour ← MULTREGT.NNCBehaviourFromString r.nnc_code
  if !r.src_default && !r.target_default && r.src_value = r.target_value then
    Except.error (BuildError.invalidArgument
      "Sorry - MULTREGT applied internally to a region is not yet supported")
  else if nnc_behaviour = NNCBehaviourEnum.NOAQUNNC then
    Except.error (BuildError.invalidArgument
      "Sorry - currently we do not support NOAQUNNC for MULTREGT.")
  else
    Except.ok ()

/-- Source lines 136-150: validate every record of the keyword occurrence,
in order. -/
def assertKeywordSupported (deckKeyword : List DeckRecord) : Except BuildError Unit :=
  deckKeyword.foldlM (fun _ r => assertRecordSupported r) ()

/-- Source lines 170-174: resolve the categorization name of a record.
A defaulted REGION_DEF inherits `m_records.back().region_name` when
`m_records` is nonempty, otherwise keeps the caller-supplied default;
an explicit value goes through the O/F/M resolver. -/
def resolveRegionName (defaultRegion : String) (m_records : List MULTREGTRecord)
    (r : DeckRecord) : Except BuildError String :=
  if r.region_default then
    match m_records.getLast? with
    | some last => Except.ok last.region_name
    | none => Except.ok defaultRegion
  else
    MULTREGT.RegionNameFromDeckValue r.region_value

/-- Source lines 157-189, the body of the expansion loop for one record:
resolve the NNC behaviour and the categorization name, expand a defaulted
or negative source/target item to the full region-ID set of that
categorization, and append one rule per (src, target) pair of the
Cartesian product to `m_records`. -/
def processRecord (props : Props) (defaultRegion : String)
    (m_records : List MULTREGTRecord) (r : DeckRecord) :
    Except BuildError (List MULTREGTRecord) := do
  let nnc_behaviour ← MULTREGT.NNCBehaviourFromString r.nnc_code
  let region_name ← resolveRegionName defaultRegion m_records r
  let src_regions : List Int :=
    if r.src_default || r.src_value < 0 then props.getRegions region_name
    else [r.src_value]
  let target_regions : List Int :=
    if r.target_default || r.target_value < 0 then props.getRegions region_name
    else [r.target_value]
  Except.ok (m_records ++
    src_regions.flatMap (fun src_region =>
      target_regions.map (fun target_region =>
        { src_value := src_region
          target_value := target_region
          trans_mult := r.trans_mult
          directions := r.directions
          nnc_behaviour := nnc_behaviour
          region_name := region_name : MULTREGTRecord })))

/-- Source lines 154-192, `addKeyword`: validate the whole occurrence,
then expand its records in order onto the shared `m_records` list. -/
def addKeyword (props : Props) (m_records : List MULTREGTRecord)
    (deckKeyword : List DeckRecord) (defaultRegion : String) :
    Except BuildError (List MULTREGTRecord) := do
  let _ ← assertKeywordSupported deckKeyword
  deckKeyword.foldlM (fun acc r => processRecord props defaultRegion acc r) m_records

/-- The `MULTREGTSearchMap` of the source: a map from ordered region-ID
pairs to records.  Modelled as an association list whose newest binding
is first; `spInsert` removes any older binding for the same pair, so the
entry list carries exactly the live bindings of the `std::map`. -/
abbrev SearchMap : Type := List ((Int × Int) × MULTREGTRecord)

/-- Lookup in a pair-keyed map: the `map.count(pair) == 1` test plus
`map.at(pair)` of the source collapse to this (a `std::map` holds at most
one binding per key). -/
def spFind (m : SearchMap) (p : Int × Int) : Option MULTREGTRecord :=
  match List.find? (fun e => e.1 = p) m with
  | some e => some e.2
  | none => none

/-- `std::map` assignment `m[p] = r`: the new binding replaces any
previous binding for `p`. -/
def spInsert (m : SearchMap) (p : Int × Int) (r : MULTREGTRecord) : SearchMap :=
  (p, r) :: List.filter (fun e => decide (e.1 ≠ p)) m

/-- One iteration of the first constructor loop (source lines 108-122):
a record whose categorization has no grid array throws `logic_error`; a
record with equal source and target regions is skipped; otherwise it
overwrites the `searchPairs` binding for its ordered region pair. -/
def searchPairStep (props : Props) (searchPairs : SearchMap) (record : MULTREGTRecord) :
    Except BuildError SearchMap :=
  if props.hasDeckIntGridProperty record.region_name then
    if record.src_value ≠ record.target_value then
      Except.ok (spInsert searchPairs (record.src_value, record.target_value) record)
    else
      Except.ok searchPairs
  else
    Except.error (BuildError.logicError
      ("MULTREGT record is based on region: " ++ record.region_name
        ++ " which is not in the deck"))

/-- Source lines 107-122 (first constructor loop): fold `m_records` into
the single `searchPairs` map keyed by the ordered region pair alone. -/
def buildSearchPairs (props : Props) (m_records : List MULTREGTRecord) :
    Except BuildError SearchMap :=
  m_records.foldlM (searchPairStep props) []

/-- The outer `m_searchMap`: a `std::map` from categorization name to
`MULTREGTSearchMap`, kept as an association list sorted in ascending key
order (the iteration order of `std::map<std::string, ...>`). -/
abbrev OuterMap : Type := List (String × SearchMap)

/-- Lookup of a categorization submap in `m_searchMap`. -/
def outerFind (m : OuterMap) (k : String) : Option SearchMap :=
  match List.find? (fun e => e.1 = k) m with
  | some e => some e.2
  | none => none

/-- Strict lexicographic comparison of character lists, the order
`std::map<std::string, ...>` keys follow (identical to byte comparison on
the ASCII categorization names used here). -/
def charListLt : List Char → List Char → Bool
  | _, [] => false
  | [], _ :: _ => true
  | a :: as, b :: bs => a < b || (a = b && charListLt as bs)

/-- Strict lexicographic comparison of strings. -/
def stringLt (a b : String) : Bool := charListLt a.data b.data

/-- `std::map` insertion `m[k][p] = r` on the outer map, keeping the
entry list sorted in ascending key order: update the submap in place if
the key exists, otherwise splice a fresh singleton submap in at its
ordered position. -/
def outerInsert (m : OuterMap) (k : String) (p : Int × Int) (r : MULTREGTRecord) : OuterMap :=
  match m with
  | [] => [(k, spInsert [] p r)]
  | (k₁, sm) :: rest =>
    if k = k₁ then (k₁, spInsert sm p r) :: rest
    else if stringLt k k₁ then (k, spInsert [] p r) :: (k₁, sm) :: rest
    else (k₁, sm) :: outerInsert rest k p r

/-- One iteration of the second constructor loop (source lines 124-132):
`m_searchMap[record.region_name][pair] = record`. -/
def searchMapStep (acc : OuterMap) (e : (Int × Int) × MULTREGTRecord) : OuterMap :=
  outerInsert acc e.2.region_name e.1 e.2

/-- Source lines 124-132 (second constructor loop): regroup the surviving
`searchPairs` bindings per categorization name into `m_searchMap`. -/
def buildSearchMap (searchPairs : SearchMap) : OuterMap :=
  searchPairs.foldl searchMapStep []

/-- Source lines 104-105 of the constructor: fold all keyword occurrences
onto the shared `m_records` list, each with the deck default region
keyword. -/
def buildRecords (props : Props) (keywords : List (List DeckRecord)) :
    Except BuildError (List MULTREGTRecord) :=
  keywords.foldlM (fun acc kw => addKeyword props acc kw props.getDefaultRegionKeyword) []

/-- Source lines 100-133, the full `MULTREGTScanner` constructor: expand
every keyword occurrence onto `m_records` (using the deck default region
keyword), then build `searchPairs` and regroup it into `m_searchMap`. -/
def buildScanner (props : Props) (keywords : List (List DeckRecord)) :
    Except BuildError OuterMap := do
  let m_records ← buildRecords props keywords
  let searchPairs ← buildSearchPairs props m_records
  Except.ok (buildSearchMap searchPairs)

/-- Composite lookup in `m_searchMap`: the record stored for pair `p`
under categorization `k`, if any. -/
def searchMapFind (m : OuterMap) (k : String) (p : Int × Int) : Option MULTREGTRecord :=
  match outerFind m k with
  | some sm => spFind sm p
  | none => none

/-- The rule the spec calls the last rule generated for an ordered region
pair: the last entry of the expanded rule list whose (src, target) pair is
`p` and whose source and target differ (builder-insertable rules).  A later
record takes priority over every earlier one. -/
def lastRuleFor (m_records : List MULTREGTRecord) (p : Int × Int) : Option MULTREGTRecord :=
  match m_records with
  | [] => none
  | r :: rest =>
    match lastRuleFor rest p with
    | some r2 => some r2
    | none =>
      if (r.src_value, r.target_value) = p ∧ r.src_value ≠ r.target_value then some r
      else none

/-- Source lines 226-231, one arm of the two-way key probe: a binding for
`p` matches only when it exists and its direction mask has a bit in
common with the queried face. -/
def tryPair (m : SearchMap) (p : Int × Int) (faceDir : Nat) : Option MULTREGTRecord :=
  match spFind m p with
  | some record => if record.directions &&& faceDir ≠ 0 then some record else none
  | none => none

/-- Source lines 226-232: probe the forward pair `(regionId1, regionId2)`
first; exactly when it is absent or its mask excludes the face, probe the
swapped pair. -/
def selectRecord (m : SearchMap) (regionId1 regionId2 : Int) (faceDir : Nat) :
    Option MULTREGTRecord :=
  match tryPair m (regionId1, regionId2) faceDir with
  | some record => some record
  | none => tryPair m (regionId2, regionId1) faceDir

/-- Source lines 240-249: decide whether the matched record applies,
from the cells (i, j) coordinates.  `ALL` (and any behaviour other than
`NNC`/`NONNC`) keeps the initial `applyMultiplier = true`; `NNC` clears
it exactly on a short (unit-offset orthogonal) neighbour pair; `NONNC`
sets it exactly there. -/
def applyMultiplier (record : MULTREGTRecord) (i1 i2 j1 j2 : Int) : Bool :=
  if record.nnc_behaviour = NNCBehaviourEnum.NNC then
    !(((i1 - i2).natAbs = 0 && (j1 - j2).natAbs = 1)
      || ((i1 - i2).natAbs = 1 && (j1 - j2).natAbs = 0))
  else if record.nnc_behaviour = NNCBehaviourEnum.NONNC then
    (((i1 - i2).natAbs = 0 && (j1 - j2).natAbs = 1)
      || ((i1 - i2).natAbs = 1 && (j1 - j2).natAbs = 0))
  else
    true

/-- Source lines 219-254, the loop body over `m_searchMap` entries in
iteration order: read both cells region IDs in that categorization,
probe both key orders, and on a match return the factor when the NNC
behaviour applies, otherwise fall through to the next categorization.
An empty remainder returns the identity multiplier 1. -/
def getRegionMultiplierAux (props : Props) (m : OuterMap)
    (globalIndex1 globalIndex2 : Nat) (faceDir : Nat) : Rat :=
  match m with
  | [] => 1
  | (name, sm) :: rest =>
    let regionId1 := props.iget name globalIndex1
    let regionId2 := props.iget name globalIndex2
    match selectRecord sm regionId1 regionId2 faceDir with
    | none => getRegionMultiplierAux props rest globalIndex1 globalIndex2 faceDir
    | some record =>
      let i1 : Int := Int.ofNat (globalIndex1 % props.getNX)
      let i2 : Int := Int.ofNat (globalIndex2 % props.getNX)
      let j1 : Int := Int.ofNat (globalIndex1 / props.getNX % props.getNY)
      let j2 : Int := Int.ofNat (globalIndex2 / props.getNX % props.getNY)
      if applyMultiplier record i1 i2 j1 j2 then record.trans_mult
      else getRegionMultiplierAux props rest globalIndex1 globalIndex2 faceDir

/-- Source lines 217-256, `getRegionMultiplier`. -/
def getRegionMultiplier (props : Props) (m_searchMap : OuterMap)
    (globalIndex1 globalIndex2 : Nat) (faceDir : Nat) : Rat :=
  getRegionMultiplierAux props m_searchMap globalIndex1 globalIndex2 faceDir

/-! ### Map lemmas -/

theorem spFind_nil (p : Int × Int) : spFind [] p = none := rfl

theorem spFind_cons (e : (Int × Int) × MULTREGTRecord) (m : SearchMap) (p : Int × Int) :
    spFind (e :: m) p = if e.1 = p then some e.2 else spFind m p := by
  by_cases h : e.1 = p <;> simp [spFind, List.find?_cons, h]

theorem spFind_cons_pair (q : Int × Int) (r : MULTREGTRecord) (m : SearchMap) (p : Int × Int) :
    spFind ((q, r) :: m) p = if q = p then some r else spFind m p :=
  spFind_cons (q, r) m p

theorem spFind_filter_ne (m : SearchMap) (q p : Int × Int) (h : p ≠ q) :
    spFind (List.filter (fun e => decide (e.1 ≠ q)) m) p = spFind m p := by
  induction m with
  | nil => rfl
  | cons e m ih =>
    rw [List.filter_cons]
    by_cases he : e.1 = q
    · rw [if_neg (by simp [he])]
      have hep : e.1 ≠ p := by rw [he]; exact fun hc => h hc.symm
      rw [spFind_cons, if_neg hep, ih]
    · rw [if_pos (by simp [he]), spFind_cons, spFind_cons, ih]

theorem spFind_spInsert (m : SearchMap) (q : Int × Int) (r : MULTREGTRecord) (p : Int × Int) :
    spFind (spInsert m q r) p = if p = q then some r else spFind m p := by
  unfold spInsert
  by_cases h : p = q
  · subst h; rw [spFind_cons_pair, if_pos rfl, if_pos rfl]
  · have hq : q ≠ p := fun hc => h hc.symm
    rw [spFind_cons_pair, if_neg hq, if_neg h, spFind_filter_ne m q p h]

theorem spFind_eq_none_of_not_mem (m : SearchMap) (p : Int × Int)
    (h : p ∉ m.map Prod.fst) : spFind m p = none := by
  induction m with
  | nil => rfl
  | cons e m ih =>
    have h1 : e.1 ≠ p := fun hc => h (by simp [hc.symm])
    have h2 : p ∉ m.map Prod.fst := fun hc => h (by simp [hc])
    simp [spFind_cons, h1, ih h2]

/-- Well-formedness of a pair-keyed map: no two bindings share a key. -/
def spWF (m : SearchMap) : Prop := (m.map Prod.fst).Nodup

theorem spWF_nil : spWF [] := List.nodup_nil

theorem spWF_spInsert (m : SearchMap) (q : Int × Int) (r : MULTREGTRecord) (hm : spWF m) :
    spWF (spInsert m q r) := by
  unfold spWF spInsert
  simp only [List.map_cons, List.nodup_cons]
  constructor
  · intro hmem
    rcases List.mem_map.mp hmem with ⟨e, hemem, hekey⟩
    rcases List.mem_filter.mp hemem with ⟨_, hne⟩
    exact (of_decide_eq_true hne) hekey
  · exact List.Nodup.sublist (List.Sublist.map Prod.fst (List.filter_sublist m)) hm

/-! ### String order lemmas -/

theorem charListLt_irrefl (l : List Char) : charListLt l l = false := by
  induction l with
  | nil => rfl
  | cons a l ih => simp [charListLt, ih, lt_irrefl]

theorem charListLt_trans (l₁ l₂ l₃ : List Char) (h1 : charListLt l₁ l₂ = true)
    (h2 : charListLt l₂ l₃ = true) : charListLt l₁ l₃ = true := by
  induction l₁ generalizing l₂ l₃ with
  | nil =>
    cases l₂ with
    | nil => exact absurd h1 (by simp [charListLt])
    | cons b bs =>
      cases l₃ with
      | nil => exact absurd h2 (by simp [charListLt])
      | cons c cs => simp [charListLt]
  | cons a as ih =>
    cases l₂ with
    | nil => exact absurd h1 (by simp [charListLt])
    | cons b bs =>
      cases l₃ with
      | nil => exact absurd h2 (by simp [charListLt])
      | cons c cs =>
        simp only [charListLt, Bool.or_eq_true, Bool.and_eq_true, decide_eq_true_eq] at h1 h2 ⊢
        rcases h1 with hab | ⟨hab, hrest1⟩
        · rcases h2 with hbc | ⟨hbc, _⟩
          · exact Or.inl (lt_trans hab hbc)
          · exact Or.inl (hbc ▸ hab)
        · rcases h2 with hbc | ⟨hbc, hrest2⟩
          · exact Or.inl (hab ▸ hbc)
          · exact Or.inr ⟨hab.trans hbc, ih bs cs hrest1 hrest2⟩

theorem charListLt_total (l₁ l₂ : List Char) :
    l₁ = l₂ ∨ charListLt l₁ l₂ = true ∨ charListLt l₂ l₁ = true := by
  induction l₁ generalizing l₂ with
  | nil =>
    cases l₂ with
    | nil => exact Or.inl rfl
    | cons b bs => exact Or.inr (Or.inl (by simp [charListLt]))
  | cons a as ih =>
    cases l₂ with
    | nil => exact Or.inr (Or.inr (by simp [charListLt]))
    | cons b bs =>
      rcases lt_trichotomy a b with hab | hab | hab
      · exact Or.inr (Or.inl (by simp [charListLt, hab]))
      · subst hab
        rcases ih bs with he | hl | hr
        · exact Or.inl (by rw [he])
        · exact Or.inr (Or.inl (by simp [charListLt, hl]))
        · exact Or.inr (Or.inr (by simp [charListLt, hr]))
      · exact Or.inr (Or.inr (by simp [charListLt, hab]))

theorem stringLt_irrefl (a : String) : stringLt a a = false := charListLt_irrefl a.data

theorem stringLt_trans (a b c : String) (h1 : stringLt a b = true) (h2 : stringLt b c = true) :
    stringLt a c = true := charListLt_trans a.data b.data c.data h1 h2

theorem stringLt_ne (a b : String) (h : stringLt a b = true) : a ≠ b := by
  intro hc; subst hc
  rw [stringLt_irrefl] at h
  exact Bool.false_ne_true h

theorem stringLt_total (a b : String) (h : a ≠ b) :
    stringLt a b = true ∨ stringLt b a = true := by
  rcases charListLt_total a.data b.data with he | hl | hr
  · exact absurd (String.ext he) h
  · exact Or.inl hl
  · exact Or.inr hr

/-! ### Outer map lemmas -/

theorem outerFind_nil (k : String) : outerFind [] k = none := rfl

theorem outerFind_cons (e : String × SearchMap) (m : OuterMap) (k : String) :
    outerFind (e :: m) k = if e.1 = k then some e.2 else outerFind m k := by
  by_cases h : e.1 = k <;> simp [outerFind, List.find?_cons, h]

theorem outerFind_cons_pair (k₁ : String) (sm : SearchMap) (m : OuterMap) (k : String) :
    outerFind ((k₁, sm) :: m) k = if k₁ = k then some sm else outerFind m k :=
  outerFind_cons (k₁, sm) m k

/-- Sortedness of the outer map: keys strictly ascend, as in a
`std::map`. -/
def outerWF (m : OuterMap) : Prop :=
  List.Pairwise (fun a b => stringLt a.1 b.1 = true) m

theorem outerWF_nil : outerWF [] := List.Pairwise.nil

theorem outerFind_eq_none_of_lt (m : OuterMap) (k : String)
    (h : ∀ e ∈ m, stringLt k e.1 = true) : outerFind m k = none := by
  induction m with
  | nil => rfl
  | cons e m ih =>
    rw [outerFind_cons, if_neg, ih (fun x hx => h x (List.mem_cons_of_mem e hx))]
    exact fun hc => stringLt_ne k e.1 (h e (List.mem_cons_self e m)) hc.symm

theorem outerInsert_key_mem (m : OuterMap) (k₀ : String) (p₀ : Int × Int)
    (r₀ : MULTREGTRecord) :
    ∀ e ∈ outerInsert m k₀ p₀ r₀, e.1 = k₀ ∨ e.1 ∈ m.map Prod.fst := by
  induction m with
  | nil =>
    intro e he
    rw [outerInsert] at he
    rcases List.mem_singleton.mp he with rfl
    exact Or.inl rfl
  | cons hd m ih =>
    intro e he
    rw [outerInsert] at he
    by_cases h1 : k₀ = hd.1
    · rw [if_pos h1] at he
      rcases List.mem_cons.mp he with rfl | hmem
      · exact Or.inr (by simp)
      · exact Or.inr (by simp [List.mem_map.mpr ⟨e, hmem, rfl⟩])
    · rw [if_neg h1] at he
      by_cases h2 : stringLt k₀ hd.1 = true
      · rw [if_pos h2] at he
        rcases List.mem_cons.mp he with rfl | hmem
        · exact Or.inl rfl
        · rcases List.mem_cons.mp hmem with rfl | hmem2
          · exact Or.inr (by simp)
          · exact Or.inr (by simp [List.mem_map.mpr ⟨e, hmem2, rfl⟩])
      · rw [if_neg h2] at he
        rcases List.mem_cons.mp he with rfl | hmem
        · exact Or.inr (by simp)
        · rcases ih e hmem with hk | hk
          · exact Or.inl hk
          · exact Or.inr (by simp [hk])

theorem outerWF_outerInsert (m : OuterMap) (k₀ : String) (p₀ : Int × Int)
    (r₀ : MULTREGTRecord) (hwf : outerWF m) : outerWF (outerInsert m k₀ p₀ r₀) := by
  induction m with
  | nil => exact List.pairwise_singleton _ _
  | cons hd m ih =>
    rw [outerWF, List.pairwise_cons] at hwf
    rcases hwf with ⟨hhd, hm⟩
    rw [outerInsert]
    by_cases h1 : k₀ = hd.1
    · rw [if_pos h1]
      exact List.Pairwise.cons hhd hm
    · rw [if_neg h1]
      by_cases h2 : stringLt k₀ hd.1 = true
      · rw [if_pos h2]
        refine List.Pairwise.cons ?_ (List.Pairwise.cons hhd hm)
        intro e he
        rcases List.mem_cons.mp he with rfl | hmem
        · exact h2
        · exact stringLt_trans k₀ hd.1 e.1 h2 (hhd e hmem)
      · rw [if_neg h2]
        have hgt : stringLt hd.1 k₀ = true := by
          rcases stringLt_total k₀ hd.1 h1 with hl | hr
          · exact absurd hl h2
          · exact hr
        refine List.Pairwise.cons ?_ (ih hm)
        intro e he
        rcases outerInsert_key_mem m k₀ p₀ r₀ e he with hk | hk
        · rw [hk]; exact hgt
        · rcases List.mem_map.mp hk with ⟨e2, hmem2, hkey2⟩
          rw [← hkey2]
          exact hhd e2 hmem2

theorem outerFind_outerInsert (m : OuterMap) (k₀ : String) (p₀ : Int × Int)
    (r₀ : MULTREGTRecord) (hwf : outerWF m) (k : String) :
    outerFind (outerInsert m k₀ p₀ r₀) k =
      if k = k₀ then some (spInsert ((outerFind m k₀).getD []) p₀ r₀)
      else outerFind m k := by
  induction m with
  | nil =>
    rw [outerInsert]
    by_cases h : k = k₀
    · rw [outerFind_cons_pair, if_pos h.symm, if_pos h, outerFind_nil]; rfl
    · rw [outerFind_cons_pair, if_neg (fun hc => h hc.symm), if_neg h]
  | cons hd m ih =>
    rcases hd with ⟨k₁, sm⟩
    rw [outerWF, List.pairwise_cons] at hwf
    rcases hwf with ⟨hhd, hm⟩
    rw [outerInsert]
    by_cases h1 : k₀ = k₁
    · subst h1
      rw [if_pos rfl]
      by_cases h : k = k₀
      · subst h
        rw [outerFind_cons_pair, if_pos rfl, if_pos rfl, outerFind_cons_pair, if_pos rfl]
        rfl
      · rw [outerFind_cons_pair, if_neg (fun hc => h hc.symm), if_neg h,
          outerFind_cons_pair, if_neg (fun hc => h hc.symm)]
    · rw [if_neg h1]
      by_cases h2 : stringLt k₀ k₁ = true
      · rw [if_pos h2]
        by_cases h : k = k₀
        · subst h
          rw [outerFind_cons_pair, if_pos rfl, if_pos rfl]
          have hnone : outerFind ((k₁, sm) :: m) k = none := by
            apply outerFind_eq_none_of_lt
            intro e he
            rcases List.mem_cons.mp he with rfl | hmem
            · exact h2
            · exact stringLt_trans k k₁ e.1 h2 (hhd e hmem)
          rw [hnone]; rfl
        · rw [outerFind_cons_pair, if_neg (fun hc => h hc.symm), if_neg h]
      · rw [if_neg h2]
        have hne : k₁ ≠ k₀ := fun hc => h1 hc.symm
        by_cases h : k = k₀
        · rw [outerFind_cons_pair, if_neg (fun hc => hne (hc.trans h)), ih hm, if_pos h,
            if_pos h, outerFind_cons_pair, if_neg hne]
        · rw [outerFind_cons_pair, ih hm, if_neg h, if_neg h, outerFind_cons_pair]

/-! ### Index construction lemmas -/

theorem searchMapFind_eq_getD (m : OuterMap) (k : String) (p : Int × Int) :
    searchMapFind m k p = spFind ((outerFind m k).getD []) p := by
  unfold searchMapFind
  cases outerFind m k <;> rfl

theorem searchMapFind_outerInsert (m : OuterMap) (k₀ : String) (p₀ : Int × Int)
    (r₀ : MULTREGTRecord) (hwf : outerWF m) (k : String) (p : Int × Int) :
    searchMapFind (outerInsert m k₀ p₀ r₀) k p =
      if k = k₀ then (if p = p₀ then some r₀ else searchMapFind m k p)
      else searchMapFind m k p := by
  rw [searchMapFind_eq_getD, outerFind_outerInsert m k₀ p₀ r₀ hwf k]
  by_cases h : k = k₀
  · subst h
    rw [if_pos rfl, if_pos rfl, Option.getD_some, spFind_spInsert, searchMapFind_eq_getD]
  · rw [if_neg h, if_neg h, searchMapFind_eq_getD]

theorem outerWF_foldl (sp : SearchMap) (acc : OuterMap) (hwf : outerWF acc) :
    outerWF (sp.foldl searchMapStep acc) := by
  induction sp generalizing acc with
  | nil => exact hwf
  | cons e sp ih => exact ih _ (outerWF_outerInsert _ _ _ _ hwf)

theorem searchMapFind_foldl (sp : SearchMap) (acc : OuterMap) (hwf : outerWF acc)
    (hnd : spWF sp) (k : String) (p : Int × Int) :
    searchMapFind (sp.foldl searchMapStep acc) k p =
      match spFind sp p with
      | some r => if r.region_name = k then some r else searchMapFind acc k p
      | none => searchMapFind acc k p := by
  induction sp generalizing acc with
  | nil => rw [List.foldl_nil]; rfl
  | cons e sp ih =>
    have hnd2 : spWF sp := by
      rw [spWF, List.map_cons, List.nodup_cons] at hnd
      exact hnd.2
    have hnotmem : e.1 ∉ sp.map Prod.fst := by
      rw [spWF, List.map_cons, List.nodup_cons] at hnd
      exact hnd.1
    rw [List.foldl_cons, ih (searchMapStep acc e) (outerWF_outerInsert _ _ _ _ hwf) hnd2]
    by_cases hp : e.1 = p
    · subst hp
      have h0 : spFind sp e.1 = none := spFind_eq_none_of_not_mem _ _ hnotmem
      rw [h0, spFind_cons, if_pos rfl]
      show searchMapFind (outerInsert acc e.2.region_name e.1 e.2) k e.1 = _
      rw [searchMapFind_outerInsert _ _ _ _ hwf, if_pos rfl]
      by_cases hk : k = e.2.region_name
      · rw [if_pos hk]
        exact (if_pos hk.symm).symm
      · rw [if_neg hk]
        exact (if_neg (show ¬(e.2.region_name = k) from fun hc => hk hc.symm)).symm
    · rw [spFind_cons, if_neg hp]
      have hstep : searchMapFind (searchMapStep acc e) k p = searchMapFind acc k p := by
        show searchMapFind (outerInsert acc e.2.region_name e.1 e.2) k p = _
        rw [searchMapFind_outerInsert _ _ _ _ hwf,
          if_neg (show ¬(p = e.1) from fun hc => hp hc.symm), ite_self]
      rw [hstep]

theorem searchMapFind_buildSearchMap (sp : SearchMap) (hnd : spWF sp) (k : String)
    (p : Int × Int) :
    searchMapFind (buildSearchMap sp) k p =
      match spFind sp p with
      | some r => if r.region_name = k then some r else none
      | none => none := by
  rw [buildSearchMap, searchMapFind_foldl sp [] outerWF_nil hnd]
  cases spFind sp p <;> rfl

theorem buildSearchPairs_go (props : Props) (rs : List MULTREGTRecord) (init sp : SearchMap)
    (h : rs.foldlM (searchPairStep props) init = Except.ok sp) (p : Int × Int) :
    spFind sp p =
      match lastRuleFor rs p with
      | some r => some r
      | none => spFind init p := by
  induction rs generalizing init with
  | nil =>
    rw [List.foldlM_nil] at h
    injection h with h2
    rw [h2]
    rfl
  | cons r rs ih =>
    rw [List.foldlM_cons] at h
    cases hstep : searchPairStep props init r with
    | error e =>
      rw [hstep] at h
      exact Except.noConfusion h
    | ok next =>
      rw [hstep] at h
      have h2 : rs.foldlM (searchPairStep props) next = Except.ok sp := h
      unfold searchPairStep at hstep
      by_cases hprop : props.hasDeckIntGridProperty r.region_name
      · rw [if_pos hprop] at hstep
        by_cases hne : r.src_value ≠ r.target_value
        · rw [if_pos hne] at hstep
          injection hstep with hnext
          subst hnext
          rw [ih _ h2, lastRuleFor]
          cases lastRuleFor rs p with
          | some r2 => rfl
          | none =>
            by_cases hpq : p = (r.src_value, r.target_value)
            · rw [spFind_spInsert, if_pos hpq, if_pos ⟨hpq.symm, hne⟩]
            · rw [spFind_spInsert, if_neg hpq, if_neg]
              intro hc
              exact hpq hc.1.symm
        · rw [if_neg hne] at hstep
          injection hstep with hnext
          subst hnext
          rw [ih _ h2, lastRuleFor]
          cases lastRuleFor rs p with
          | some r2 => rfl
          | none =>
            rw [if_neg]
            intro hc
            exact hne hc.2
      · rw [if_neg hprop] at hstep
        exact Except.noConfusion hstep

theorem buildSearchPairs_wf_go (props : Props) (rs : List MULTREGTRecord) (init sp : SearchMap)
    (hinit : spWF init) (h : rs.foldlM (searchPairStep props) init = Except.ok sp) :
    spWF sp := by
  induction rs generalizing init with
  | nil =>
    rw [List.foldlM_nil] at h
    injection h with h2
    rw [← h2]
    exact hinit
  | cons r rs ih =>
    rw [List.foldlM_cons] at h
    cases hstep : searchPairStep props init r with
    | error e =>
      rw [hstep] at h
      exact Except.noConfusion h
    | ok next =>
      rw [hstep] at h
      refine ih next ?_ h
      unfold searchPairStep at hstep
      by_cases hprop : props.hasDeckIntGridProperty r.region_name
      · rw [if_pos hprop] at hstep
        by_cases hne : r.src_value ≠ r.target_value
        · rw [if_pos hne] at hstep
          injection hstep with hnext
          rw [← hnext]
          exact spWF_spInsert _ _ _ hinit
        · rw [if_neg hne] at hstep
          injection hstep with hnext
          rw [← hnext]
          exact hinit
      · rw [if_neg hprop] at hstep
        exact Except.noConfusion hstep

theorem buildSearchPairs_find (props : Props) (rs : List MULTREGTRecord) (sp : SearchMap)
    (h : buildSearchPairs props rs = Except.ok sp) (p : Int × Int) :
    spFind sp p = lastRuleFor rs p := by
  rw [buildSearchPairs] at h
  rw [buildSearchPairs_go props rs [] sp h p]
  cases lastRuleFor rs p <;> rfl

theorem buildSearchPairs_wf (props : Props) (rs : List MULTREGTRecord) (sp : SearchMap)
    (h : buildSearchPairs props rs = Except.ok sp) : spWF sp := by
  rw [buildSearchPairs] at h
  exact buildSearchPairs_wf_go props rs [] sp spWF_nil h

/-! ### Claim C1 -/

/-- Grid collaborator for the C1 scenario: both FLUXNUM and MULTNUM
arrays exist. -/
def propsC1 : Props where
  hasDeckIntGridProperty := fun s => s = "FLUXNUM" || s = "MULTNUM"
  getRegions := fun s => if s = "FLUXNUM" then [1, 2] else if s = "MULTNUM" then [1, 2] else []
  iget := fun _ g => if g = 0 then 1 else 2
  getNX := 10
  getNY := 10
  getDefaultRegionKeyword := "MULTNUM"

/-- Deck record `1 2 3.0 X(1) ALL M`. -/
def deckC1M : DeckRecord := ⟨false, 1, false, 2, false, "M", 3, 1, "ALL"⟩

/-- Deck record `1 2 5.0 Y(4) ALL F`, the later record with the same
ordered region pair but a different categorization. -/
def deckC1F : DeckRecord := ⟨false, 1, false, 2, false, "F", 5, 4, "ALL"⟩

/-- The rule expanded from `deckC1F`. -/
def recC1F : MULTREGTRecord := ⟨1, 2, 5, 4, NNCBehaviourEnum.ALL, "FLUXNUM"⟩

/-- The index built from the C1 deck: only the later FLUXNUM rule
survives. -/
def smC1 : OuterMap := [("FLUXNUM", [((1, 2), recC1F)])]

/-- Claim C1, counterexample.  Two records define rules for the same
ordered pair (1, 2) under different categorizations (MULTNUM first, then
FLUXNUM).  The claim asserts both are independent entries retained in the
index, but the built index holds no MULTNUM entry at all: the
intermediate `searchPairs` map of the constructor is keyed by the region
pair alone, so the later FLUXNUM rule silently replaced the earlier
MULTNUM rule. -/
theorem C1_counterexample :
    buildScanner propsC1 [[deckC1M, deckC1F]] = Except.ok smC1 ∧
    searchMapFind smC1 "FLUXNUM" (1, 2) = some recC1F ∧
    searchMapFind smC1 "MULTNUM" (1, 2) = none := by
  refine ⟨by decide, by decide, by decide⟩

/-- Claim C1 (amended): the built index maps each ordered region pair to
exactly the last rule generated for that pair across the whole expanded
rule list, regardless of categorization; that rule is retained only under
its own categorization name, and every other categorization holds no
entry for the pair.  In particular, within a single categorization a
later rule for the identical (categorization, ordered pair) replaces an
earlier one, but a later rule with the same ordered pair and a different
categorization also replaces it, dropping the earlier categorization
entry entirely. -/
theorem C1_index_maps_pair_to_last_rule (props : Props) (m_records : List MULTREGTRecord)
    (sp : SearchMap) (h : buildSearchPairs props m_records = Except.ok sp)
    (k : String) (p : Int × Int) :
    searchMapFind (buildSearchMap sp) k p =
      match lastRuleFor m_records p with
      | some r => if r.region_name = k then some r else none
      | none => none := by
  rw [searchMapFind_buildSearchMap sp (buildSearchPairs_wf props m_records sp h) k p,
    buildSearchPairs_find props m_records sp h p]

/-- The rule expanded from `deckC1M`. -/
def recC1M : MULTREGTRecord := ⟨1, 2, 3, 1, NNCBehaviourEnum.ALL, "MULTNUM"⟩

/-- The surviving `searchPairs` content for the C1 scenario. -/
def spC1 : SearchMap := [((1, 2), recC1F)]

/-- Claim C1 witness: the amended theorem applied to the concrete C1
rule list. -/
theorem C1_index_maps_pair_to_last_rule_witness :
    buildSearchPairs propsC1 [recC1M, recC1F] = Except.ok spC1 ∧
    searchMapFind (buildSearchMap spC1) "FLUXNUM" (1, 2) = some recC1F := by
  have h : buildSearchPairs propsC1 [recC1M, recC1F] = Except.ok spC1 := by decide
  refine ⟨h, ?_⟩
  rw [C1_index_maps_pair_to_last_rule propsC1 [recC1M, recC1F] spC1 h "FLUXNUM" (1, 2)]
  decide

/-! ### Claim C2 -/

/-- Grid collaborator for the C2 scenario: the two cells lie in FLUXNUM
regions (1, 2) and MULTNUM regions (3, 4). -/
def propsC2 : Props where
  hasDeckIntGridProperty := fun s => s = "FLUXNUM" || s = "MULTNUM"
  getRegions := fun s =>
    if s = "FLUXNUM" then [1, 2] else if s = "MULTNUM" then [3, 4] else []
  iget := fun s g =>
    if s = "FLUXNUM" then (if g = 0 then 1 else 2) else (if g = 0 then 3 else 4)
  getNX := 10
  getNY := 10
  getDefaultRegionKeyword := "MULTNUM"

/-- Deck record `1 2 2.0 X(1) NNC F`. -/
def deckC2F : DeckRecord := ⟨false, 1, false, 2, false, "F", 2, 1, "NNC"⟩

/-- Deck record `3 4 5.0 X(1) ALL M`. -/
def deckC2M : DeckRecord := ⟨false, 3, false, 4, false, "M", 5, 1, "ALL"⟩

/-- The rule expanded from `deckC2F`. -/
def recC2F : MULTREGTRecord := ⟨1, 2, 2, 1, NNCBehaviourEnum.NNC, "FLUXNUM"⟩

/-- The rule expanded from `deckC2M`. -/
def recC2M : MULTREGTRecord := ⟨3, 4, 5, 1, NNCBehaviourEnum.ALL, "MULTNUM"⟩

/-- The index built from the C2 deck; FLUXNUM iterates first. -/
def smC2 : OuterMap :=
  [("FLUXNUM", [((1, 2), recC2F)]), ("MULTNUM", [((3, 4), recC2M)])]

/-- Claim C2, counterexample.  Cells 0 and 10 are short (unit-offset j)
neighbours.  Both active categorizations have a rule matching the cells'
region pair with a direction mask including face 1, and FLUXNUM is first
in iteration order, but its rule has NNC behaviour, which suppresses
application on a short neighbour pair: the scanner does not return from
the first matching categorization; it falls through and returns the later
MULTNUM rule's factor 5, which is neither the first rule's factor 2 nor
the identity 1. -/
theorem C2_counterexample :
    buildScanner propsC2 [[deckC2F, deckC2M]] = Except.ok smC2 ∧
    smC2.head? = some ("FLUXNUM", [((1, 2), recC2F)]) ∧
    selectRecord [((1, 2), recC2F)] (propsC2.iget "FLUXNUM" 0)
      (propsC2.iget "FLUXNUM" 10) 1 = some recC2F ∧
    selectRecord [((3, 4), recC2M)] (propsC2.iget "MULTNUM" 0)
      (propsC2.iget "MULTNUM" 10) 1 = some recC2M ∧
    getRegionMultiplier propsC2 smC2 0 10 1 = 5 ∧
    recC2F.trans_mult = 2 ∧ (5 : Rat) ≠ 2 ∧ (5 : Rat) ≠ 1 := by
  refine ⟨by decide, by decide, by decide, by decide, by decide, by decide, by decide,
    by decide⟩

/-- Claim C2 (amended): the result of a lookup is determined by the first
categorization in iteration order whose matching rule's NNC behaviour
applies: the scanner returns that rule's factor immediately.  A
categorization whose rule matches the region pair and face but whose
behaviour suppresses application is passed over, and later categorizations
are consulted; if no categorization yields an applying rule the result is
the identity 1. -/
theorem C2_first_applying_categorization_wins (props : Props) (m : OuterMap)
    (g1 g2 face : Nat) :
    getRegionMultiplier props m g1 g2 face =
      ((m.filterMap (fun e =>
          match selectRecord e.2 (props.iget e.1 g1) (props.iget e.1 g2) face with
          | some rec =>
            if applyMultiplier rec (Int.ofNat (g1 % props.getNX))
                (Int.ofNat (g2 % props.getNX)) (Int.ofNat (g1 / props.getNX % props.getNY))
                (Int.ofNat (g2 / props.getNX % props.getNY)) then
              some rec.trans_mult
            else none
          | none => none)).head?).getD 1 := by
  induction m with
  | nil => rfl
  | cons e rest ih =>
    rcases e with ⟨name, sm⟩
    rw [getRegionMultiplier] at ih ⊢
    rw [getRegionMultiplierAux, List.filterMap_cons]
    cases hsel : selectRecord sm (props.iget name g1) (props.iget name g2) face with
    | none => simp only [hsel, ih]
    | some rec =>
      simp only [hsel]
      by_cases happ : applyMultiplier rec (Int.ofNat (g1 % props.getNX))
          (Int.ofNat (g2 % props.getNX)) (Int.ofNat (g1 / props.getNX % props.getNY))
          (Int.ofNat (g2 / props.getNX % props.getNY))
      · rw [if_pos happ, if_pos happ]
        rfl
      · rw [if_neg happ, if_neg happ, ih]

/-! ### Claim C3 -/

theorem lastRuleFor_diag (rs : List MULTREGTRecord) (a : Int) :
    lastRuleFor rs (a, a) = none := by
  induction rs with
  | nil => rfl
  | cons r rest ih =>
    rw [lastRuleFor, ih, if_neg]
    intro hc
    rcases hc with ⟨hpair, hne⟩
    have h1 : r.src_value = a := congrArg Prod.fst hpair
    have h2 : r.target_value = a := congrArg Prod.snd hpair
    exact hne (h1.trans h2.symm)

/-- Grid collaborator for the C3 scenario: MULTNUM regions are 1, 2, 3. -/
def propsC3 : Props where
  hasDeckIntGridProperty := fun s => s = "MULTNUM"
  getRegions := fun s => if s = "MULTNUM" then [1, 2, 3] else []
  iget := fun _ g => if g = 0 then 1 else 2
  getNX := 10
  getNY := 10
  getDefaultRegionKeyword := "MULTNUM"

/-- Deck record `* 2 3.0 X(1) ALL M`: the source region is defaulted. -/
def deckC3 : DeckRecord := ⟨true, 0, false, 2, false, "M", 3, 1, "ALL"⟩

/-- The self-referential rule (2, 2) that wildcard expansion emits. -/
def recC3 : MULTREGTRecord := ⟨2, 2, 3, 1, NNCBehaviourEnum.ALL, "MULTNUM"⟩

/-- The full expansion of `deckC3`. -/
def rulesC3 : List MULTREGTRecord :=
  [⟨1, 2, 3, 1, NNCBehaviourEnum.ALL, "MULTNUM"⟩, recC3,
   ⟨3, 2, 3, 1, NNCBehaviourEnum.ALL, "MULTNUM"⟩]

/-- Claim C3, counterexample.  A record with a defaulted source region
and explicit target region 2 passes validation (the self-reference check
fires only when both items are explicit), yet its wildcard expansion over
MULTNUM regions 1, 2, 3 emits the rule (2, 2) whose source equals its
target — refuting the claim that the post-validation expanded rule list
never contains such a rule. -/
theorem C3_counterexample :
    assertKeywordSupported [deckC3] = Except.ok () ∧
    addKeyword propsC3 [] [deckC3] "MULTNUM" = Except.ok rulesC3 ∧
    recC3 ∈ rulesC3 ∧
    recC3.src_value = recC3.target_value := by
  refine ⟨by decide, by decide, by decide, by decide⟩

/-- Claim C3 (amended): the expanded rule list of a validated occurrence
can contain rules whose source equals their target (wildcard expansion
substitutes the full region set, which may include the explicit opposite
ID); the index builder silently skips every such rule rather than
erroring, so neither the `searchPairs` map nor the final index ever holds
an entry keyed by a pair of equal region IDs. -/
theorem C3_builder_never_inserts_equal_pair (props : Props)
    (m_records : List MULTREGTRecord) (sp : SearchMap)
    (h : buildSearchPairs props m_records = Except.ok sp) (a : Int) (k : String) :
    spFind sp (a, a) = none ∧ searchMapFind (buildSearchMap sp) k (a, a) = none := by
  have h1 : spFind sp (a, a) = none := by
    rw [buildSearchPairs_find props m_records sp h, lastRuleFor_diag]
  refine ⟨h1, ?_⟩
  rw [searchMapFind_buildSearchMap sp (buildSearchPairs_wf props m_records sp h) k (a, a), h1]

/-- The surviving `searchPairs` content for the C3 scenario: the rule
(2, 2) was skipped, the other two were inserted. -/
def spC3 : SearchMap :=
  [((3, 2), ⟨3, 2, 3, 1, NNCBehaviourEnum.ALL, "MULTNUM"⟩),
   ((1, 2), ⟨1, 2, 3, 1, NNCBehaviourEnum.ALL, "MULTNUM"⟩)]

/-- Claim C3 witness: the amended theorem applied to the concrete C3
rule list. -/
theorem C3_builder_never_inserts_equal_pair_witness :
    buildSearchPairs propsC3 rulesC3 = Except.ok spC3 ∧
    (spFind spC3 (2, 2) = none ∧
      searchMapFind (buildSearchMap spC3) "MULTNUM" (2, 2) = none) := by
  have h : buildSearchPairs propsC3 rulesC3 = Except.ok spC3 := by decide
  exact ⟨h, C3_builder_never_inserts_equal_pair propsC3 rulesC3 spC3 h 2 "MULTNUM"⟩

/-! ### Claim C4 -/

theorem applyMultiplier_iff (rec : MULTREGTRecord) (i1 i2 j1 j2 : Int)
    (hnoaq : rec.nnc_behaviour ≠ NNCBehaviourEnum.NOAQUNNC) :
    applyMultiplier rec i1 i2 j1 j2 = true ↔
      (rec.nnc_behaviour = NNCBehaviourEnum.ALL ∨
       (rec.nnc_behaviour = NNCBehaviourEnum.NNC ∧
         ¬ ((i1 - i2).natAbs, (j1 - j2).natAbs) ∈ ([(0, 1), (1, 0)] : List (Nat × Nat)) ∨
       (rec.nnc_behaviour = NNCBehaviourEnum.NONNC ∧
         ((i1 - i2).natAbs, (j1 - j2).natAbs) ∈ ([(0, 1), (1, 0)] : List (Nat × Nat))))) := by
  cases hb : rec.nnc_behaviour with
  | NNC =>
    simp only [applyMultiplier, hb, List.mem_cons, Prod.mk.injEq]
    simp
    tauto
  | NONNC =>
    simp [applyMultiplier, hb, List.mem_cons, Prod.mk.injEq]
  | ALL =>
    simp [applyMultiplier, hb]
  | NOAQUNNC => exact absurd hb hnoaq

/-- Claim C4: when a categorization's rule matches, the scanner recovers
each cell's (i, j) coordinates as i = g mod NX and j = (g div NX) mod NY,
classifies the pair as a short neighbour exactly when
(|i1-i2|, |j1-j2|) is (0, 1) or (1, 0), and then behaviour ALL always
applies the multiplier, NNC applies it exactly when the pair is not a
short neighbour, and NONNC applies it exactly when the pair is a short
neighbour; when the behaviour suppresses application the scanner falls
through to the remaining categorizations. -/
theorem C4_short_neighbour_classification (props : Props) (name : String)
    (sm : SearchMap) (rest : OuterMap) (g1 g2 face : Nat) (rec : MULTREGTRecord)
    (hsel : selectRecord sm (props.iget name g1) (props.iget name g2) face = some rec)
    (hnoaq : rec.nnc_behaviour ≠ NNCBehaviourEnum.NOAQUNNC) :
    getRegionMultiplierAux props ((name, sm) :: rest) g1 g2 face =
      if rec.nnc_behaviour = NNCBehaviourEnum.ALL ∨
         (rec.nnc_behaviour = NNCBehaviourEnum.NNC ∧
           ¬ ((Int.ofNat (g1 % props.getNX) - Int.ofNat (g2 % props.getNX)).natAbs,
              (Int.ofNat (g1 / props.getNX % props.getNY) -
               Int.ofNat (g2 / props.getNX % props.getNY)).natAbs)
             ∈ ([(0, 1), (1, 0)] : List (Nat × Nat)) ∨
         (rec.nnc_behaviour = NNCBehaviourEnum.NONNC ∧
           ((Int.ofNat (g1 % props.getNX) - Int.ofNat (g2 % props.getNX)).natAbs,
            (Int.ofNat (g1 / props.getNX % props.getNY) -
             Int.ofNat (g2 / props.getNX % props.getNY)).natAbs)
             ∈ ([(0, 1), (1, 0)] : List (Nat × Nat)))) then
        rec.trans_mult
      else getRegionMultiplierAux props rest g1 g2 face := by
  rw [getRegionMultiplierAux]
  simp only [hsel]
  rw [if_congr (applyMultiplier_iff rec _ _ _ _ hnoaq) rfl rfl]

/-- Grid collaborator for the C4 scenario. -/
def propsC4 : Props where
  hasDeckIntGridProperty := fun s => s = "MULTNUM"
  getRegions := fun s => if s = "MULTNUM" then [1, 2] else []
  iget := fun _ g => if g = 0 then 1 else 2
  getNX := 10
  getNY := 10
  getDefaultRegionKeyword := "MULTNUM"

/-- An NNC rule between regions 1 and 2 with factor 7. -/
def recC4 : MULTREGTRecord := ⟨1, 2, 7, 1, NNCBehaviourEnum.NNC, "MULTNUM"⟩

/-- Claim C4 witness: cells 0 and 10 of a 10-by-10 grid are short
neighbours (coordinates (0, 0) and (0, 1)), so the matched NNC rule is
suppressed and the lookup falls through to the identity 1. -/
theorem C4_short_neighbour_classification_witness :
    selectRecord [((1, 2), recC4)] (propsC4.iget "MULTNUM" 0)
      (propsC4.iget "MULTNUM" 10) 1 = some recC4 ∧
    getRegionMultiplierAux propsC4 [("MULTNUM", [((1, 2), recC4)])] 0 10 1 = 1 := by
  have h : selectRecord [((1, 2), recC4)] (propsC4.iget "MULTNUM" 0)
      (propsC4.iget "MULTNUM" 10) 1 = some recC4 := by decide
  refine ⟨h, ?_⟩
  rw [C4_short_neighbour_classification propsC4 "MULTNUM" [((1, 2), recC4)] [] 0 10 1 recC4 h
    (by decide)]
  decide

/-! ### Claim C5 -/

/-- Claim C5: within a categorization the scanner probes the forward key
(idA, idB) first; when that key holds a rule whose mask includes the
face, that rule is selected.  Exactly when the forward probe fails
(absent key or excluded face) the swapped key (idB, idA) is probed with
the same direction check.  Hence a rule stored only under (region1,
region2) is still found when the queried cells' regions are ordered
(region2, region1). -/
theorem C5_swapped_key_fallback (m : SearchMap) (a b : Int) (face : Nat) :
    (∀ rec, spFind m (a, b) = some rec → rec.directions &&& face ≠ 0 →
        selectRecord m a b face = some rec) ∧
    (tryPair m (a, b) face = none →
        selectRecord m a b face = tryPair m (b, a) face) ∧
    (∀ rec, spFind m (a, b) = some rec → rec.directions &&& face ≠ 0 →
        spFind m (b, a) = none → selectRecord m b a face = some rec) := by
  refine ⟨?_, ?_, ?_⟩
  · intro rec hf hd
    have ht : tryPair m (a, b) face = some rec := by
      unfold tryPair
      rw [hf]
      exact if_pos hd
    unfold selectRecord
    rw [ht]
  · intro h
    unfold selectRecord
    rw [h]
  · intro rec hf hd hnone
    have htb : tryPair m (b, a) face = none := by
      unfold tryPair
      rw [hnone]
    have ht : tryPair m (a, b) face = some rec := by
      unfold tryPair
      rw [hf]
      exact if_pos hd
    unfold selectRecord
    rw [htb, ht]

/-- A single rule stored only under the ordered pair (1, 2). -/
def recC5 : MULTREGTRecord := ⟨1, 2, 9, 1, NNCBehaviourEnum.ALL, "MULTNUM"⟩

/-- The map for the C5 scenario. -/
def mC5 : SearchMap := [((1, 2), recC5)]

/-- Claim C5 witness: the rule stored only under (1, 2) is found by a
query whose region order is (2, 1). -/
theorem C5_swapped_key_fallback_witness :
    spFind mC5 (1, 2) = some recC5 ∧ recC5.directions &&& 1 ≠ 0 ∧
    spFind mC5 (2, 1) = none ∧ selectRecord mC5 2 1 1 = some recC5 := by
  refine ⟨by decide, by decide, by decide,
    (C5_swapped_key_fallback mC5 1 2 1).2.2 recC5 (by decide) (by decide) (by decide)⟩

/-! ### Claim C6 -/

/-- Claim C6: a record whose source (resp. target) region item is
defaulted or negative expands over the full distinct region-ID set of the
resolved categorization, otherwise over the single explicit ID; the
record emits exactly one rule per (src, target) pair of the Cartesian
product of the two sets, in generation order, all sharing the record's
multiplier, direction mask, NNC behaviour and categorization name,
appended after the rules accumulated so far. -/
theorem C6_wildcard_cartesian_expansion (props : Props) (defaultRegion : String)
    (acc : List MULTREGTRecord) (r : DeckRecord) (nnc : NNCBehaviourEnum) (name : String)
    (hn : MULTREGT.NNCBehaviourFromString r.nnc_code = Except.ok nnc)
    (hr : resolveRegionName defaultRegion acc r = Except.ok name) :
    processRecord props defaultRegion acc r =
      Except.ok (acc ++
        (List.product
          (if r.src_default || r.src_value < 0 then props.getRegions name
           else [r.src_value])
          (if r.target_default || r.target_value < 0 then props.getRegions name
           else [r.target_value])).map
          (fun st => { src_value := st.1, target_value := st.2,
                       trans_mult := r.trans_mult, directions := r.directions,
                       nnc_behaviour := nnc, region_name := name : MULTREGTRecord })) := by
  unfold processRecord
  rw [hn, hr]
  simp only [bind, Except.bind]
  congr 2
  simp [List.product, List.map_flatMap, List.map_map, Function.comp_def]

/-- Grid collaborator for the C6 scenario: MULTNUM regions are 1, 2, 3. -/
def propsC6 : Props where
  hasDeckIntGridProperty := fun s => s = "MULTNUM"
  getRegions := fun s => if s = "MULTNUM" then [1, 2, 3] else []
  iget := fun _ g => if g = 0 then 1 else 2
  getNX := 10
  getNY := 10
  getDefaultRegionKeyword := "MULTNUM"

/-- Deck record `* 5 2.0 XY(3) NNC M`: defaulted source region. -/
def deckC6 : DeckRecord := ⟨true, 0, false, 5, false, "M", 2, 3, "NNC"⟩

/-- Claim C6 witness: the defaulted source expands over MULTNUM regions
1, 2, 3, giving one rule per Cartesian pair with target 5. -/
theorem C6_wildcard_cartesian_expansion_witness :
    MULTREGT.NNCBehaviourFromString deckC6.nnc_code = Except.ok NNCBehaviourEnum.NNC ∧
    resolveRegionName "MULTNUM" [] deckC6 = Except.ok "MULTNUM" ∧
    processRecord propsC6 "MULTNUM" [] deckC6 =
      Except.ok
        [⟨1, 5, 2, 3, NNCBehaviourEnum.NNC, "MULTNUM"⟩,
         ⟨2, 5, 2, 3, NNCBehaviourEnum.NNC, "MULTNUM"⟩,
         ⟨3, 5, 2, 3, NNCBehaviourEnum.NNC, "MULTNUM"⟩] := by
  refine ⟨by decide, by decide, ?_⟩
  rw [C6_wildcard_cartesian_expansion propsC6 "MULTNUM" [] deckC6 NNCBehaviourEnum.NNC
    "MULTNUM" (by decide) (by decide)]
  decide

/-! ### Claim C7 -/

/-- Claim C7: a record with a defaulted categorization item inherits the
categorization name of the immediately preceding rule of the single rule
list accumulated across all keyword occurrences processed so far — the
running `m_records` state is not reset per occurrence — so appending a
further occurrence whose record has a defaulted categorization emits its
rule under the last accumulated rule's categorization; when no rule
precedes in the whole build, the caller-supplied default categorization
is used; an explicit categorization item is resolved through the O/F/M
code mapping. -/
theorem C7_defaulted_categorization_inheritance (props : Props)
    (kws : List (List DeckRecord)) (acc : List MULTREGTRecord) (lastRec : MULTREGTRecord)
    (r : DeckRecord) (nnc : NNCBehaviourEnum)
    (hacc : buildRecords props kws = Except.ok acc)
    (hlast : acc.getLast? = some lastRec)
    (hd : r.region_default = true)
    (hsrc : r.src_default = false) (hsrcnn : ¬ r.src_value < 0)
    (htgt : r.target_default = false) (htgtnn : ¬ r.target_value < 0)
    (hnnc : MULTREGT.NNCBehaviourFromString r.nnc_code = Except.ok nnc)
    (hnoaq : nnc ≠ NNCBehaviourEnum.NOAQUNNC)
    (hne : r.src_value ≠ r.target_value) :
    buildRecords props (kws ++ [[r]]) =
      Except.ok (acc ++
        [⟨r.src_value, r.target_value, r.trans_mult, r.directions, nnc,
          lastRec.region_name⟩]) ∧
    (∀ rd : DeckRecord, rd.region_default = true →
      resolveRegionName props.getDefaultRegionKeyword [] rd =
        Except.ok props.getDefaultRegionKeyword) ∧
    (∀ rd : DeckRecord, rd.region_default = false →
      resolveRegionName props.getDefaultRegionKeyword acc rd =
        MULTREGT.RegionNameFromDeckValue rd.region_value) := by
  have hresolve : resolveRegionName props.getDefaultRegionKeyword acc r =
      Except.ok lastRec.region_name := by
    unfold resolveRegionName
    rw [if_pos hd, hlast]
  have hrec : assertRecordSupported r = Except.ok () := by
    unfold assertRecordSupported
    rw [hnnc]
    simp [bind, Except.bind, hsrc, htgt, hne, hnoaq]
  have hassert : assertKeywordSupported [r] = Except.ok () := by
    rw [assertKeywordSupported, List.foldlM_cons, hrec]
    rfl
  have hprocess : processRecord props props.getDefaultRegionKeyword acc r =
      Except.ok (acc ++
        [⟨r.src_value, r.target_value, r.trans_mult, r.directions, nnc,
          lastRec.region_name⟩]) := by
    unfold processRecord
    rw [hnnc, hresolve]
    simp [bind, Except.bind, hsrc, hsrcnn, htgt, htgtnn]
  have haddkw : addKeyword props acc [r] props.getDefaultRegionKeyword =
      Except.ok (acc ++
        [⟨r.src_value, r.target_value, r.trans_mult, r.directions, nnc,
          lastRec.region_name⟩]) := by
    unfold addKeyword
    rw [hassert]
    simp only [bind, Except.bind, List.foldlM_cons, hprocess, List.foldlM_nil]
    rfl
  refine ⟨?_, ?_, ?_⟩
  · rw [buildRecords, List.foldlM_append]
    have hacc2 : kws.foldlM
        (fun acc kw => addKeyword props acc kw props.getDefaultRegionKeyword) [] =
        Except.ok acc := hacc
    rw [hacc2]
    simp only [bind, Except.bind, List.foldlM_cons, haddkw, List.foldlM_nil]
    rfl
  · intro rd hrd
    unfold resolveRegionName
    rw [if_pos hrd]
    rfl
  · intro rd hrd
    unfold resolveRegionName
    rw [if_neg]
    simp [hrd]

/-- Grid collaborator for the C7 scenario. -/
def propsC7 : Props where
  hasDeckIntGridProperty := fun s => s = "FLUXNUM" || s = "MULTNUM"
  getRegions := fun s =>
    if s = "FLUXNUM" then [1, 2] else if s = "MULTNUM" then [1, 2] else []
  iget := fun _ g => if g = 0 then 1 else 2
  getNX := 10
  getNY := 10
  getDefaultRegionKeyword := "MULTNUM"

/-- First occurrence record `1 2 2.0 X(1) ALL F`. -/
def deckC7a : DeckRecord := ⟨false, 1, false, 2, false, "F", 2, 1, "ALL"⟩

/-- Second occurrence record `3 4 5.0 X(1) ALL *`: the categorization is
defaulted. -/
def deckC7b : DeckRecord := ⟨false, 3, false, 4, true, "", 5, 1, "ALL"⟩

/-- The rule accumulated from the first occurrence. -/
def accC7 : List MULTREGTRecord := [⟨1, 2, 2, 1, NNCBehaviourEnum.ALL, "FLUXNUM"⟩]

/-- Claim C7 witness: the defaulted record of the second occurrence
inherits FLUXNUM from the last rule of the first occurrence, not the
deck default MULTNUM. -/
theorem C7_defaulted_categorization_inheritance_witness :
    buildRecords propsC7 [[deckC7a]] = Except.ok accC7 ∧
    buildRecords propsC7 [[deckC7a], [deckC7b]] =
      Except.ok (accC7 ++ [⟨3, 4, 5, 1, NNCBehaviourEnum.ALL, "FLUXNUM"⟩]) := by
  have h : buildRecords propsC7 [[deckC7a]] = Except.ok accC7 := by decide
  refine ⟨h, ?_⟩
  exact (C7_defaulted_categorization_inheritance propsC7 [[deckC7a]] accC7
    ⟨1, 2, 2, 1, NNCBehaviourEnum.ALL, "FLUXNUM"⟩ deckC7b NNCBehaviourEnum.ALL h
    (by decide) (by decide) (by decide) (by decide) (by decide) (by decide) (by decide)
    (by decide) (by decide)).1

/-! ### Claim C8 -/

/-- Discriminates the error constructor of an `Except`. -/
def isError {ε α : Type} : Except ε α → Bool
  | Except.error _ => true
  | Except.ok _ => false

/-- The record faults named by claim C8: explicit, numerically equal
source and target region IDs; or an NNC behaviour code resolving to
NOAQUNNC; or an unrecognized NNC behaviour code. -/
def recordInvalid (r : DeckRecord) : Prop :=
  (r.src_default = false ∧ r.target_default = false ∧ r.src_value = r.target_value) ∨
  MULTREGT.NNCBehaviourFromString r.nnc_code = Except.ok NNCBehaviourEnum.NOAQUNNC ∨
  isError (MULTREGT.NNCBehaviourFromString r.nnc_code) = true

instance recordInvalidDecidable (r : DeckRecord) : Decidable (recordInvalid r) := by
  unfold recordInvalid
  exact inferInstance

theorem NNCBehaviourFromString_cases (s : String) :
    (∃ b, MULTREGT.NNCBehaviourFromString s = Except.ok b) ∨
    (∃ msg, MULTREGT.NNCBehaviourFromString s =
      Except.error (BuildError.invalidArgument msg)) := by
  unfold MULTREGT.NNCBehaviourFromString
  by_cases h1 : s = "ALL"
  · rw [if_pos h1]; exact Or.inl ⟨_, rfl⟩
  · rw [if_neg h1]
    by_cases h2 : s = "NNC"
    · rw [if_pos h2]; exact Or.inl ⟨_, rfl⟩
    · rw [if_neg h2]
      by_cases h3 : s = "NONNC"
      · rw [if_pos h3]; exact Or.inl ⟨_, rfl⟩
      · rw [if_neg h3]
        by_cases h4 : s = "NOAQUNNC"
        · rw [if_pos h4]; exact Or.inl ⟨_, rfl⟩
        · rw [if_neg h4]; exact Or.inr ⟨_, rfl⟩

theorem assertRecordSupported_shape (r : DeckRecord) :
    assertRecordSupported r = Except.ok () ∨
    (∃ msg, assertRecordSupported r =
      Except.error (BuildError.invalidArgument msg)) := by
  unfold assertRecordSupported
  rcases NNCBehaviourFromString_cases r.nnc_code with ⟨b, hb⟩ | ⟨msg, hm⟩
  · rw [hb]
    simp only [bind, Except.bind]
    split
    · exact Or.inr ⟨_, rfl⟩
    · split
      · exact Or.inr ⟨_, rfl⟩
      · exact Or.inl rfl
  · rw [hm]
    exact Or.inr ⟨msg, rfl⟩

theorem assertRecordSupported_invalid (r : DeckRecord) (h : recordInvalid r) :
    ∃ msg, assertRecordSupported r = Except.error (BuildError.invalidArgument msg) := by
  rcases assertRecordSupported_shape r with hok | herr
  · exfalso
    rcases NNCBehaviourFromString_cases r.nnc_code with ⟨b, hb⟩ | ⟨msg, hm⟩
    · unfold assertRecordSupported at hok
      rw [hb] at hok
      simp only [bind, Except.bind] at hok
      rcases h with ⟨h1, h2, h3⟩ | h4 | h5
      · rw [if_pos] at hok
        · exact Except.noConfusion hok
        · simp [h1, h2, h3]
      · have hbb : b = NNCBehaviourEnum.NOAQUNNC := by
          rw [hb] at h4
          exact Except.ok.inj h4
        by_cases hc : (!r.src_default && !r.target_default &&
            decide (r.src_value = r.target_value)) = true
        · rw [if_pos] at hok
          · exact Except.noConfusion hok
          · simpa using hc
        · rw [if_neg, if_pos hbb] at hok
          · exact Except.noConfusion hok
          · simpa using hc
      · rw [hb] at h5
        exact Bool.false_ne_true h5
    · unfold assertRecordSupported at hok
      rw [hm] at hok
      exact Except.noConfusion hok
  · exact herr

theorem assertKeywordSupported_invalid (kw : List DeckRecord) (r : DeckRecord)
    (hmem : r ∈ kw) (hinv : recordInvalid r) :
    ∃ msg, assertKeywordSupported kw =
      Except.error (BuildError.invalidArgument msg) := by
  induction kw with
  | nil => exact absurd hmem (List.not_mem_nil r)
  | cons hd tl ih =>
    rw [assertKeywordSupported, List.foldlM_cons]
    rcases List.mem_cons.mp hmem with rfl | htl
    · rcases assertRecordSupported_invalid r hinv with ⟨msg, hmsg⟩
      rw [hmsg]
      exact ⟨msg, rfl⟩
    · rcases assertRecordSupported_shape hd with hok | ⟨msg, hmsg⟩
      · rw [hok]
        rcases ih htl with ⟨msg, hmsg⟩
        rw [assertKeywordSupported] at hmsg
        exact ⟨msg, by simp only [bind, Except.bind]; exact hmsg⟩
      · rw [hmsg]
        exact ⟨msg, rfl⟩

/-- Claim C8: if any record of a keyword occurrence has explicit,
numerically equal source and target region IDs, or an NNC behaviour code
resolving to NOAQUNNC, or an unrecognized NNC behaviour code, then the
occurrence fails validation with an invalid-argument error, and
`addKeyword` propagates that same error before expanding anything: the
occurrence contributes zero rules (no partial acceptance). -/
theorem C8_validation_rejects_before_expansion (props : Props)
    (acc : List MULTREGTRecord) (kw : List DeckRecord) (d : String) (r : DeckRecord)
    (hmem : r ∈ kw) (hinv : recordInvalid r) :
    ∃ msg, assertKeywordSupported kw = Except.error (BuildError.invalidArgument msg) ∧
      addKeyword props acc kw d = Except.error (BuildError.invalidArgument msg) := by
  rcases assertKeywordSupported_invalid kw r hmem hinv with ⟨msg, hkw⟩
  refine ⟨msg, hkw, ?_⟩
  unfold addKeyword
  rw [hkw]
  rfl

/-- Grid collaborator for the C8 scenario. -/
def propsC8 : Props where
  hasDeckIntGridProperty := fun s => s = "MULTNUM"
  getRegions := fun s => if s = "MULTNUM" then [1, 2, 3] else []
  iget := fun _ g => if g = 0 then 1 else 2
  getNX := 10
  getNY := 10
  getDefaultRegionKeyword := "MULTNUM"

/-- Deck record `3 3 1.0 X(1) ALL M`: explicit, equal source and target
regions. -/
def deckC8 : DeckRecord := ⟨false, 3, false, 3, false, "M", 1, 1, "ALL"⟩

/-- Claim C8 witness: the self-referential record makes the whole
occurrence fail validation with an invalid-argument error, which
`addKeyword` propagates. -/
theorem C8_validation_rejects_before_expansion_witness :
    deckC8 ∈ [deckC8] ∧ recordInvalid deckC8 ∧
    (∃ msg, assertKeywordSupported [deckC8] =
        Except.error (BuildError.invalidArgument msg) ∧
      addKeyword propsC8 [] [deckC8] "MULTNUM" =
        Except.error (BuildError.invalidArgument msg)) :=
  ⟨by decide, by decide,
    C8_validation_rejects_before_expansion propsC8 [] [deckC8] "MULTNUM" deckC8
      (by decide) (by decide)⟩

/-! ### Claim C9 -/

/-- Claim C9: lookup never fails.  Whenever no categorization yields an
applicable rule — for each categorization either no key in either order
carries a rule whose direction mask includes the queried face
(`selectRecord` is `none`), or the selected rule's NNC behaviour
suppresses application — the result is exactly the identity multiplier 1,
for every pair of cell indices and every face. -/
theorem C9_no_match_returns_identity (props : Props) (m : OuterMap) (g1 g2 face : Nat)
    (h : ∀ e ∈ m, Option.all
        (fun rec => !applyMultiplier rec (Int.ofNat (g1 % props.getNX))
          (Int.ofNat (g2 % props.getNX)) (Int.ofNat (g1 / props.getNX % props.getNY))
          (Int.ofNat (g2 / props.getNX % props.getNY)))
        (selectRecord e.2 (props.iget e.1 g1) (props.iget e.1 g2) face) = true) :
    getRegionMultiplier props m g1 g2 face = 1 := by
  induction m with
  | nil => rfl
  | cons e rest ih =>
    rcases e with ⟨name, sm⟩
    have hhd := h (name, sm) (List.mem_cons_self _ _)
    rw [getRegionMultiplier, getRegionMultiplierAux]
    cases hsel : selectRecord sm (props.iget name g1) (props.iget name g2) face with
    | none =>
      exact ih (fun e2 he2 => h e2 (List.mem_cons_of_mem _ he2))
    | some rec =>
      rw [hsel] at hhd
      rw [Option.all] at hhd
      have happ : applyMultiplier rec (Int.ofNat (g1 % props.getNX))
          (Int.ofNat (g2 % props.getNX)) (Int.ofNat (g1 / props.getNX % props.getNY))
          (Int.ofNat (g2 / props.getNX % props.getNY)) = false := by
        rcases Bool.eq_false_or_eq_true (applyMultiplier rec (Int.ofNat (g1 % props.getNX))
          (Int.ofNat (g2 % props.getNX)) (Int.ofNat (g1 / props.getNX % props.getNY))
          (Int.ofNat (g2 / props.getNX % props.getNY))) with ht | hf
        · rw [ht] at hhd
          exact absurd hhd (by simp)
        · exact hf
      simp only [hsel, happ, Bool.false_eq_true, if_false]
      exact ih (fun e2 he2 => h e2 (List.mem_cons_of_mem _ he2))

/-- Grid collaborator for the C9 scenario. -/
def propsC9 : Props where
  hasDeckIntGridProperty := fun s => s = "MULTNUM"
  getRegions := fun s => if s = "MULTNUM" then [1, 2] else []
  iget := fun _ g => if g = 0 then 1 else 2
  getNX := 10
  getNY := 10
  getDefaultRegionKeyword := "MULTNUM"

/-- An NNC rule between regions 1 and 2 with factor 6. -/
def recC9 : MULTREGTRecord := ⟨1, 2, 6, 1, NNCBehaviourEnum.NNC, "MULTNUM"⟩

/-- The index for the C9 scenario. -/
def smC9 : OuterMap := [("MULTNUM", [((1, 2), recC9)])]

/-- Claim C9 witness: cells 0 and 10 are short neighbours, the only
matching rule is NNC-suppressed, so the lookup degrades to the identity
multiplier 1. -/
theorem C9_no_match_returns_identity_witness :
    (∀ e ∈ smC9, Option.all
        (fun rec => !applyMultiplier rec (Int.ofNat (0 % propsC9.getNX))
          (Int.ofNat (10 % propsC9.getNX)) (Int.ofNat (0 / propsC9.getNX % propsC9.getNY))
          (Int.ofNat (10 / propsC9.getNX % propsC9.getNY)))
        (selectRecord e.2 (propsC9.iget e.1 0) (propsC9.iget e.1 10) 1) = true) ∧
    getRegionMultiplier propsC9 smC9 0 10 1 = 1 :=
  ⟨by decide, C9_no_match_returns_identity propsC9 smC9 0 10 1 (by decide)⟩

/-! ### Claim C10 -/

/-- Claim C10: within a categorization, when the forward-ordered key
(idA, idB) holds a rule whose direction mask includes the queried face,
that rule is selected and the swapped key (idB, idA) is never consulted —
in particular, when the forward rule's NNC behaviour suppresses
application the scanner proceeds directly to the next categorization,
even if a rule stored under the swapped key would have applied. -/
theorem C10_forward_match_blocks_swapped_key (props : Props) (name : String)
    (sm : SearchMap) (rest : OuterMap) (g1 g2 face : Nat) (rec : MULTREGTRecord)
    (hfwd : spFind sm (props.iget name g1, props.iget name g2) = some rec)
    (hdir : rec.directions &&& face ≠ 0)
    (hsup : applyMultiplier rec (Int.ofNat (g1 % props.getNX))
      (Int.ofNat (g2 % props.getNX)) (Int.ofNat (g1 / props.getNX % props.getNY))
      (Int.ofNat (g2 / props.getNX % props.getNY)) = false) :
    selectRecord sm (props.iget name g1) (props.iget name g2) face = some rec ∧
    getRegionMultiplierAux props ((name, sm) :: rest) g1 g2 face =
      getRegionMultiplierAux props rest g1 g2 face := by
  have ht : tryPair sm (props.iget name g1, props.iget name g2) face = some rec := by
    unfold tryPair
    rw [hfwd]
    exact if_pos hdir
  have hsel : selectRecord sm (props.iget name g1) (props.iget name g2) face = some rec := by
    unfold selectRecord
    rw [ht]
  refine ⟨hsel, ?_⟩
  rw [getRegionMultiplierAux]
  simp only [hsel, hsup, Bool.false_eq_true, if_false]

/-- Grid collaborator for the C10 scenario. -/
def propsC10 : Props where
  hasDeckIntGridProperty := fun s => s = "MULTNUM"
  getRegions := fun s => if s = "MULTNUM" then [1, 2] else []
  iget := fun _ g => if g = 0 then 1 else 2
  getNX := 10
  getNY := 10
  getDefaultRegionKeyword := "MULTNUM"

/-- The forward rule stored under (1, 2): NNC behaviour. -/
def recC10nnc : MULTREGTRecord := ⟨1, 2, 4, 1, NNCBehaviourEnum.NNC, "MULTNUM"⟩

/-- The swapped rule stored under (2, 1): ALL behaviour, factor 9. -/
def recC10all : MULTREGTRecord := ⟨2, 1, 9, 1, NNCBehaviourEnum.ALL, "MULTNUM"⟩

/-- The categorization submap holding both key orders. -/
def smC10 : SearchMap := [((1, 2), recC10nnc), ((2, 1), recC10all)]

/-- Claim C10 witness: both key orders are populated; the forward NNC
rule matches the face but is suppressed on the short neighbour pair, and
the lookup returns 1 from the empty remainder — the applicable ALL rule
under the swapped key is never consulted. -/
theorem C10_forward_match_blocks_swapped_key_witness :
    spFind smC10 (1, 2) = some recC10nnc ∧
    spFind smC10 (2, 1) = some recC10all ∧
    applyMultiplier recC10all 0 0 0 1 = true ∧
    (selectRecord smC10 (propsC10.iget "MULTNUM" 0) (propsC10.iget "MULTNUM" 10) 1 =
        some recC10nnc ∧
      getRegionMultiplierAux propsC10 [("MULTNUM", smC10)] 0 10 1 =
        getRegionMultiplierAux propsC10 [] 0 10 1) ∧
    getRegionMultiplierAux propsC10 [] 0 10 1 = 1 :=
  ⟨by decide, by decide, by decide,
    C10_forward_match_blocks_swapped_key propsC10 "MULTNUM" smC10 [] 0 10 1 recC10nnc
      (by decide) (by decide) (by decide), by decide⟩

end MULTREGTSpec
